import Mathlib

/-!
Shallow embedding of the FitnessApp repository (a single-user fitness
dashboard backed by a relational store) and verification of its
specification claims.

Dates are modelled as integers counting days from a fixed Monday epoch, so
that Python's `d.weekday()` is `d % 7` (`Int.emod`, always in `[0,7)`).
Floats are modelled as rationals.  Nullable columns are `Option`.
-/

namespace FitnessApp

/-- Row of the `user` table (models.py `User`). -/
structure UserR where
  id : Nat
  name : String
  email : Option String
  height_cm : Option ℚ
  goal_weight_kg : Option ℚ
  units : String
deriving DecidableEq

/-- Row of the `week` table (models.py `Week`). -/
structure WeekR where
  id : Nat
  user_id : Nat
  week_number : Int
  start_date : Int
deriving DecidableEq

/-- Row of the `dailymetric` table (models.py `DailyMetric`). -/
structure DailyR where
  id : Nat
  user_id : Nat
  date : Int
  week_id : Option Nat
  weight_kg : Option ℚ
  steps : Option Int
  run_km : Option ℚ
deriving DecidableEq

/-- Row of the `measurement` table (models.py `Measurement`). -/
structure MeasR where
  id : Nat
  user_id : Nat
  week_id : Nat
  r_biceps_in : Option ℚ
  l_biceps_in : Option ℚ
  chest_in : Option ℚ
  r_thigh_in : Option ℚ
  l_thigh_in : Option ℚ
  waist_navel_in : Option ℚ
deriving DecidableEq

/-- Row of the `wellbeing` table (models.py `Wellbeing`). -/
structure WellR where
  id : Nat
  user_id : Nat
  week_id : Nat
  sleep_issues : Option Int
  hunger_issues : Option Int
  stress_issues : Option Int
deriving DecidableEq

/-- Row of the `adherence` table (models.py `Adherence`). -/
structure AdhR where
  id : Nat
  user_id : Nat
  week_id : Nat
  diet_score : Option Int
  workout_score : Option Int
deriving DecidableEq

/-- The relational store (the SQLite database), with fresh-id counters
standing in for the autoincrement primary keys. -/
structure Store where
  users : List UserR
  weeks : List WeekR
  dailies : List DailyR
  measurements : List MeasR
  wellbeings : List WellR
  adherences : List AdhR
  nextUserId : Nat
  nextWeekId : Nat
  nextDailyId : Nat
deriving DecidableEq

/-- pages/2 Data_Entry `steps_to_km`: `pd.to_numeric` then the formula when
the value is present, `None` on a missing value. -/
def entry_steps_to_km (steps : Option ℚ) : Option ℚ :=
  steps.map (fun s => (s * 8) / (1780 * 5))

/-- pages/1 Dashboard `steps_to_km`: elementwise `(s * 8.0) / (1780.0 * 5.0)`
on a numeric series; a present cell maps to a present cell. -/
def dashboard_steps_to_km (s : ℚ) : ℚ :=
  (s * 8) / (1780 * 5)

/-- pages/3 Import_Export line 75: `(dm.steps * 8.0) / (1780.0 * 5.0)`. -/
def import_steps_to_km (s : ℚ) : ℚ :=
  (s * 8) / (1780 * 5)

/-- pages/5 Manage_Data line 59: `(dm.steps * 8.0) / (1780.0 * 5.0)`. -/
def manage_steps_to_km (s : ℚ) : ℚ :=
  (s * 8) / (1780 * 5)

/-- Rounding a value to 2 decimal places, as the dashboard's `.round(2)`. -/
def round2 (x : ℚ) : ℚ :=
  (round (x * 100) : ℚ) / 100

/-- pages/2 Data_Entry `monday_start`: `d - timedelta(days=d.weekday())`. -/
def monday_start (d : Int) : Int :=
  d - d % 7

/-- The week_number the data-entry path would assign next: the source takes
the first week of `order_by(Week.week_number.desc())`, i.e. the maximal
existing week_number for the user, and adds 1; with no weeks it uses 1. -/
def next_week_number (s : Store) (uid : Nat) : Int :=
  match ((s.weeks.filter (fun w => w.user_id == uid)).map WeekR.week_number).max? with
  | some m => m + 1
  | none => 1

/-- pages/2 Data_Entry `get_or_create_week`: look up a Week by
(user_id, monday start of d); if absent create one numbered
`next_week_number`.  Returns the resolved week and the updated store. -/
def get_or_create_week (s : Store) (uid : Nat) (d : Int) : WeekR × Store :=
  let start := monday_start d
  match s.weeks.find? (fun w => w.user_id == uid && w.start_date == start) with
  | some wk => (wk, s)
  | none =>
    let wk : WeekR :=
      { id := s.nextWeekId, user_id := uid
        week_number := next_week_number s uid, start_date := start }
    (wk, { s with weeks := s.weeks ++ [wk], nextWeekId := s.nextWeekId + 1 })

/-- app.py `bootstrap_user`: if no User row exists, insert
`User(name="You", email=None, height_cm=None, goal_weight_kg=None,
units="metric")`; return the (first) user and the store. -/
def bootstrap_user (s : Store) : Store × UserR :=
  match s.users.head? with
  | some u => (s, u)
  | none =>
    let u : UserR :=
      { id := s.nextUserId, name := "You", email := none
        height_cm := none, goal_weight_kg := none, units := "metric" }
    ({ s with users := s.users ++ [u], nextUserId := s.nextUserId + 1 }, u)

/-- pages/2 Data_Entry, Save daily entry: resolve the week for the chosen
date, then insert a DailyMetric with `weight_kg = None if weight == 0 else
weight`, `steps = int(steps) if steps else None` (zero is falsy) and
`run_km = steps_to_km(steps)` computed from the raw widget value. -/
def save_daily_entry (s : Store) (uid : Nat) (d : Int) (weight : ℚ) (steps : Int) :
    Store :=
  let wk := (get_or_create_week s uid d).1
  let s1 := (get_or_create_week s uid d).2
  let dm : DailyR :=
    { id := s1.nextDailyId, user_id := uid, date := d, week_id := some wk.id
      weight_kg := if weight == 0 then none else some weight
      steps := if steps == 0 then none else some steps
      run_km := entry_steps_to_km (some (steps : ℚ)) }
  { s1 with dailies := s1.dailies ++ [dm], nextDailyId := s1.nextDailyId + 1 }

/-- pages/3 Import_Export lines 62-77, the per-row daily part of the CSV
import: find the Week by (user, start_date), else create it with the row's
explicit `week_number`; then upsert (by user and date) a DailyMetric,
setting weight_kg/steps from the row and recomputing
`run_km = (steps * 8.0) / (1780.0 * 5.0)` when steps is present, else None. -/
def import_resolve_week (s : Store) (uid : Nat) (row_week_number : Int)
    (row_start : Int) : WeekR × Store :=
  match s.weeks.find? (fun w => w.user_id == uid && w.start_date == row_start) with
  | some wk => (wk, s)
  | none =>
    let wk : WeekR :=
      { id := s.nextWeekId, user_id := uid
        week_number := row_week_number, start_date := row_start }
    (wk, { s with weeks := s.weeks ++ [wk], nextWeekId := s.nextWeekId + 1 })

def csv_import_daily (s : Store) (uid : Nat) (row_week_number : Int)
    (row_start : Int) (row_date : Int) (row_weight : Option ℚ)
    (row_steps : Option Int) : Store :=
  let wk := (import_resolve_week s uid row_week_number row_start).1
  let s1 := (import_resolve_week s uid row_week_number row_start).2
  match s1.dailies.find? (fun dm => dm.user_id == uid && dm.date == row_date) with
  | some dm0 =>
    let dm : DailyR :=
      { dm0 with
        weight_kg := row_weight
        steps := row_steps
        run_km := Option.map (fun st : Int => import_steps_to_km (st : ℚ)) row_steps
        week_id := some wk.id }
    { s1 with dailies := s1.dailies.map (fun x => if x.id == dm0.id then dm else x) }
  | none =>
    let dm : DailyR :=
      { id := s1.nextDailyId, user_id := uid, date := row_date
        week_id := some wk.id
        weight_kg := row_weight
        steps := row_steps
        run_km := Option.map (fun st : Int => import_steps_to_km (st : ℚ)) row_steps }
    { s1 with dailies := s1.dailies ++ [dm], nextDailyId := s1.nextDailyId + 1 }

/-- pages/5 Manage_Data, Save changes on one edited daily row: look up the
DailyMetric by id (skip if missing), write back date, week_id only when
provided, weight_kg/steps (absent when blank), and recompute run_km from
the edited steps, or set it absent when steps is absent. -/
def manage_save_daily_row (s : Store) (rid : Nat) (r_date : Int)
    (r_week_id : Option Nat) (r_weight : Option ℚ) (r_steps : Option Int) :
    Store :=
  match s.dailies.find? (fun dm => dm.id == rid) with
  | none => s
  | some dm0 =>
    let dm1 := { dm0 with date := r_date }
    let dm2 :=
      match r_week_id with
      | some w => { dm1 with week_id := some w }
      | none => dm1
    let dm3 := { dm2 with weight_kg := r_weight, steps := r_steps }
    let dm4 :=
      match dm3.steps with
      | some st => { dm3 with run_km := some (manage_steps_to_km (st : ℚ)) }
      | none => { dm3 with run_km := none }
    { s with dailies := s.dailies.map (fun x => if x.id == rid then dm4 else x) }

/-- Date-range membership used by the date-mode bulk deletion:
`DailyMetric.date >= d_from, DailyMetric.date <= d_to`. -/
def dateInRange (d_from d_to d : Int) : Bool :=
  decide (d_from ≤ d) && decide (d ≤ d_to)

/-- pages/3 Import_Export, "Delete now" in date mode (lines 178-214).
Returns the resulting store and whether the confirmation error was shown.
If `confirm` is not exactly "DELETE", nothing is deleted and the error flag
is true; otherwise: collect the week ids referenced by in-range dailies,
delete all in-range dailies, and when `also_delete_weekly` is set and some
week was touched, find the touched weeks with no remaining dailies at all,
delete their Measurement/Wellbeing/Adherence rows, and when
`delete_empty_weeks` is additionally set delete those Week rows too. -/
def delete_by_date (s : Store) (confirm : String) (d_from d_to : Int)
    (also_delete_weekly delete_empty_weeks : Bool) : Store × Bool :=
  if confirm != "DELETE" then (s, true)
  else
    let q_daily := s.dailies.filter (fun dm => dateInRange d_from d_to dm.date)
    let touched_week_ids := (q_daily.filterMap DailyR.week_id).dedup
    let dailies1 := s.dailies.filter (fun dm => !(dateInRange d_from d_to dm.date))
    let s1 := { s with dailies := dailies1 }
    if also_delete_weekly && !touched_week_ids.isEmpty then
      let empty_weeks := touched_week_ids.filter
        (fun wid => (dailies1.filter (fun dm => dm.week_id == some wid)).isEmpty)
      if !empty_weeks.isEmpty then
        let s2 :=
          { s1 with
            measurements := s1.measurements.filter (fun m => !(empty_weeks.contains m.week_id))
            wellbeings := s1.wellbeings.filter (fun m => !(empty_weeks.contains m.week_id))
            adherences := s1.adherences.filter (fun m => !(empty_weeks.contains m.week_id)) }
        if delete_empty_weeks then
          ({ s2 with weeks := s2.weeks.filter (fun w => !(empty_weeks.contains w.id)) }, false)
        else (s2, false)
      else (s1, false)
    else (s1, false)

/-- pages/3 Import_Export, "Delete now" in week-number mode (lines 241-266).
Selects Week rows by `week_number` in `[wk_from, wk_to]` (no user filter);
when any match: delete their dailies, then when `also_delete_weekly2` the
Measurement/Wellbeing/Adherence rows, then when `delete_weeks2` the Week
rows themselves.  A wrong confirmation deletes nothing and flags an error. -/
def delete_by_week (s : Store) (confirm : String) (wk_from wk_to : Int)
    (also_delete_weekly2 delete_weeks2 : Bool) : Store × Bool :=
  if confirm != "DELETE" then (s, true)
  else
    let week_rows := s.weeks.filter
      (fun w => decide (wk_from ≤ w.week_number) && decide (w.week_number ≤ wk_to))
    let wids := week_rows.map WeekR.id
    if !wids.isEmpty then
      let s1 :=
        { s with
          dailies := s.dailies.filter (fun dm =>
            !(match dm.week_id with
              | some wid => wids.contains wid
              | none => false)) }
      let s2 :=
        if also_delete_weekly2 then
          { s1 with
            measurements := s1.measurements.filter (fun m => !(wids.contains m.week_id))
            wellbeings := s1.wellbeings.filter (fun m => !(wids.contains m.week_id))
            adherences := s1.adherences.filter (fun m => !(wids.contains m.week_id)) }
        else s1
      let s3 :=
        if delete_weeks2 then
          { s2 with weeks := s2.weeks.filter (fun w => !(wids.contains w.id)) }
        else s2
      (s3, false)
    else (s, false)

/-! ### Dataframe model for utils.py

A cell is an optional rational (`None`/NaN is `none`); a row is a total
function from column names to cells (names outside the row's columns map to
`none` by construction); a frame carries its column list and its rows. -/

abbrev Cell := Option ℚ

abbrev Row := String → Cell

structure DF where
  cols : List String
  rows : List Row

/-- Values of one column, in row order (pandas `df[c]` as a series). -/
def DF.getCol (df : DF) (c : String) : List Cell :=
  df.rows.map (fun r => r c)

/-- pandas `df.empty`: no rows or no columns. -/
def DF.isEmpty (df : DF) : Bool :=
  df.rows.isEmpty || df.cols.isEmpty

/-- Functional update of one cell of a row. -/
def updateRow (r : Row) (c : String) (v : Cell) : Row :=
  fun c2 => if c2 == c then v else r c2

/-- utils.py `REQUIRED_WEEKLY_COLS`. -/
def REQUIRED_WEEKLY_COLS : List String :=
  ["week_id", "week_number", "start_date",
   "avg_weight_kg", "avg_steps", "weekly_weight_loss",
   "diet_score", "workout_score",
   "sleep_issues", "hunger_issues", "stress_issues",
   "waist_navel_in", "chest_in", "r_biceps_in", "l_biceps_in", "r_thigh_in", "l_thigh_in"]

/-- One step of `_ensure_weekly_cols`'s loop: `if c not in df.columns:
df[c] = pd.NA`. -/
def addMissingCol (df : DF) (c : String) : DF :=
  if df.cols.contains c then df
  else { cols := df.cols ++ [c], rows := df.rows.map (fun r => updateRow r c none) }

/-- utils.py `_ensure_weekly_cols`: an empty frame becomes an empty frame
with exactly the required columns; otherwise each missing required column
is added with all values absent. -/
def ensure_weekly_cols (df : DF) : DF :=
  if df.isEmpty then { cols := REQUIRED_WEEKLY_COLS, rows := [] }
  else REQUIRED_WEEKLY_COLS.foldl addMissingCol df

/-- The tabular image of one DailyMetric row (utils.py `_to_dict`). -/
def dailyRow (dm : DailyR) : Row := fun c =>
  if c == "id" then some (dm.id : ℚ)
  else if c == "user_id" then some (dm.user_id : ℚ)
  else if c == "date" then some (dm.date : ℚ)
  else if c == "week_id" then dm.week_id.map (fun w => (w : ℚ))
  else if c == "weight_kg" then dm.weight_kg
  else if c == "steps" then dm.steps.map (fun st => (st : ℚ))
  else if c == "run_km" then dm.run_km
  else none

/-- utils.py `load_daily_df`: all DailyMetric rows of the user, as a frame
that has the full column set even when there are no rows. -/
def load_daily_df (s : Store) (uid : Nat) : DF :=
  { cols := ["id", "user_id", "date", "week_id", "weight_kg", "steps", "run_km"]
    rows := (s.dailies.filter (fun dm => dm.user_id == uid)).map dailyRow }

/-- The tabular image of one Week row. -/
def weekRow (w : WeekR) : Row := fun c =>
  if c == "id" then some (w.id : ℚ)
  else if c == "user_id" then some (w.user_id : ℚ)
  else if c == "week_number" then some (w.week_number : ℚ)
  else if c == "start_date" then some (w.start_date : ℚ)
  else none

/-- The tabular image of one Measurement row. -/
def measRow (m : MeasR) : Row := fun c =>
  if c == "id" then some (m.id : ℚ)
  else if c == "user_id" then some (m.user_id : ℚ)
  else if c == "week_id" then some (m.week_id : ℚ)
  else if c == "r_biceps_in" then m.r_biceps_in
  else if c == "l_biceps_in" then m.l_biceps_in
  else if c == "chest_in" then m.chest_in
  else if c == "r_thigh_in" then m.r_thigh_in
  else if c == "l_thigh_in" then m.l_thigh_in
  else if c == "waist_navel_in" then m.waist_navel_in
  else none

/-- The tabular image of one Wellbeing row. -/
def wellRow (m : WellR) : Row := fun c =>
  if c == "id" then some (m.id : ℚ)
  else if c == "user_id" then some (m.user_id : ℚ)
  else if c == "week_id" then some (m.week_id : ℚ)
  else if c == "sleep_issues" then m.sleep_issues.map (fun v => (v : ℚ))
  else if c == "hunger_issues" then m.hunger_issues.map (fun v => (v : ℚ))
  else if c == "stress_issues" then m.stress_issues.map (fun v => (v : ℚ))
  else none

/-- The tabular image of one Adherence row. -/
def adhRow (m : AdhR) : Row := fun c =>
  if c == "id" then some (m.id : ℚ)
  else if c == "user_id" then some (m.user_id : ℚ)
  else if c == "week_id" then some (m.week_id : ℚ)
  else if c == "diet_score" then m.diet_score.map (fun v => (v : ℚ))
  else if c == "workout_score" then m.workout_score.map (fun v => (v : ℚ))
  else none

/-- Mean over a column segment ignoring absent values, absent when no value
is present (pandas `mean`). -/
def meanOpt (xs : List Cell) : Cell :=
  let vs := xs.filterMap id
  if vs.isEmpty then none else some (vs.sum / (vs.length : ℚ))

/-- Cell order used for sorting: present values by numeric order, absent
values last (pandas sort with NaN last). -/
def cellLe (a b : Cell) : Bool :=
  match a, b with
  | none, none => true
  | none, some _ => false
  | some _, none => true
  | some x, some y => decide (x ≤ y)

/-- pandas `sort_values` on one key (only the resulting order matters). -/
def sortByKey (key : Row → Cell) (l : List Row) : List Row :=
  List.insertionSort (fun a b => cellLe (key a) (key b) = true) l

/-- Sorting of bare cells, used for group keys (pandas groupby sorts its
keys, NaN last under `dropna=False`). -/
def sortCells (l : List Cell) : List Cell :=
  List.insertionSort (fun a b => cellLe a b = true) l

/-- Join matching for merges: pandas never matches NaN keys. -/
def cellMatch (a b : Cell) : Bool :=
  match a, b with
  | some x, some y => x == y
  | _, _ => false

/-- Extend a row with values for the given columns taken from `src`. -/
def extendCols (r : Row) (cs : List String) (src : Row) : Row :=
  fun c => if cs.contains c then src c else r c

/-- Keep the last row of each `week_id` group (the source sorts by id and
then `drop_duplicates(subset=["week_id"], keep="last")`). -/
def dropDupKeepLast : List Row → List Row
  | [] => []
  | r :: rs =>
    if rs.any (fun r2 => r2 "week_id" == r "week_id") then dropDupKeepLast rs
    else r :: dropDupKeepLast rs

/-- One weekly-table merge step of utils.py `load_weekly_df`: skipped when
the frame is empty; otherwise sort by id, keep one row per week_id, and
left-join its value columns onto `out` by week_id. -/
def mergeWeeklyTable (out : DF) (frame : DF) (valCols : List String) : DF :=
  if frame.isEmpty then out
  else
    let rrows := dropDupKeepLast (sortByKey (fun r => r "id") frame.rows)
    { cols := out.cols ++ valCols
      rows := out.rows.flatMap (fun r =>
        let ms := rrows.filter (fun rr => cellMatch (r "week_id") (rr "week_id"))
        if ms.isEmpty then [extendCols r valCols (fun _ => none)]
        else ms.map (fun rr => extendCols r valCols rr)) }

/-- Difference of two cells, absent when either is (pandas subtraction). -/
def optSub (a b : Cell) : Cell :=
  match a, b with
  | some x, some y => some (x - y)
  | _, _ => none

/-- Assign `weekly_weight_loss = avg_weight_kg.diff(1)` positionally; the
accumulator holds the previous row's avg_weight_kg cell, absent before the
first row. -/
def diffAssign : Option Cell → List Row → List Row
  | _, [] => []
  | prev, r :: rs =>
    let v : Cell :=
      match prev with
      | none => none
      | some p => optSub (r "avg_weight_kg") p
    updateRow r "weekly_weight_loss" v :: diffAssign (some (r "avg_weight_kg")) rs

/-- pandas `series.diff(1)` on a list of cells, for stating claims: each
position holds that cell minus the immediately preceding cell, with the
first position absent.  The accumulator is the preceding cell, absent
before the first position. -/
def diffSeriesAux : Option Cell → List Cell → List Cell
  | _, [] => []
  | prev, x :: xs =>
    (match prev with
     | none => none
     | some p => optSub x p) :: diffSeriesAux (some x) xs

def diffSeries (xs : List Cell) : List Cell :=
  diffSeriesAux none xs

/-- The base week table of `load_weekly_df` (`w` in the source). -/
def weekly_weeks_df (s : Store) (uid : Nat) : DF :=
  { cols := ["id", "user_id", "week_number", "start_date"]
    rows := (s.weeks.filter (fun w => w.user_id == uid)).map weekRow }

/-- The grouped daily aggregates of `load_weekly_df` (`avg` in the source):
one row per distinct week_id value (keys sorted, absent last), holding the
means of weight_kg and steps over that group's daily rows. -/
def weekly_avg_df (s : Store) (uid : Nat) : DF :=
  { cols := ["week_id", "avg_weight_kg", "avg_steps"]
    rows := (sortCells (((load_daily_df s uid).rows.map (fun r => r "week_id")).dedup)).map
      (fun k =>
        fun c =>
          if c == "week_id" then k
          else if c == "avg_weight_kg" then
            meanOpt (((load_daily_df s uid).rows.filter
              (fun r => r "week_id" == k)).map (fun r => r "weight_kg"))
          else if c == "avg_steps" then
            meanOpt (((load_daily_df s uid).rows.filter
              (fun r => r "week_id" == k)).map (fun r => r "steps"))
          else none) }

/-- The merge of the aggregates with the week table (`out` after the first
merge in the source): left-join on week_id = id, keeping week_number and
start_date, or all-absent columns when the week table is empty. -/
def weekly_out0 (s : Store) (uid : Nat) : DF :=
  if (weekly_weeks_df s uid).isEmpty then
    { cols := (weekly_avg_df s uid).cols ++ ["week_number", "start_date"]
      rows := (weekly_avg_df s uid).rows.map
        (fun r => extendCols r ["week_number", "start_date"] (fun _ => none)) }
  else
    { cols := (weekly_avg_df s uid).cols ++ ["week_number", "start_date"]
      rows := (weekly_avg_df s uid).rows.flatMap (fun r =>
        if ((weekly_weeks_df s uid).rows.filter
            (fun wr => cellMatch (r "week_id") (wr "id"))).isEmpty then
          [extendCols r ["week_number", "start_date"] (fun _ => none)]
        else
          ((weekly_weeks_df s uid).rows.filter
            (fun wr => cellMatch (r "week_id") (wr "id"))).map
            (fun wr => extendCols r ["week_number", "start_date"] wr)) }

/-- The user's Measurement rows as a frame (`m` in the source). -/
def meas_df (s : Store) (uid : Nat) : DF :=
  { cols := ["id", "user_id", "week_id", "r_biceps_in", "l_biceps_in",
             "chest_in", "r_thigh_in", "l_thigh_in", "waist_navel_in"]
    rows := (s.measurements.filter (fun x => x.user_id == uid)).map measRow }

/-- The user's Wellbeing rows as a frame (`wb` in the source). -/
def well_df (s : Store) (uid : Nat) : DF :=
  { cols := ["id", "user_id", "week_id", "sleep_issues", "hunger_issues", "stress_issues"]
    rows := (s.wellbeings.filter (fun x => x.user_id == uid)).map wellRow }

/-- The user's Adherence rows as a frame (`ad` in the source). -/
def adh_df (s : Store) (uid : Nat) : DF :=
  { cols := ["id", "user_id", "week_id", "diet_score", "workout_score"]
    rows := (s.adherences.filter (fun x => x.user_id == uid)).map adhRow }

/-- `out` after the three weekly-table merges of the source loop. -/
def weekly_out3 (s : Store) (uid : Nat) : DF :=
  mergeWeeklyTable
    (mergeWeeklyTable
      (mergeWeeklyTable (weekly_out0 s uid) (meas_df s uid)
        ["r_biceps_in", "l_biceps_in", "chest_in", "r_thigh_in", "l_thigh_in",
         "waist_navel_in"])
      (well_df s uid) ["sleep_issues", "hunger_issues", "stress_issues"])
    (adh_df s uid) ["diet_score", "workout_score"]

/-- `out` after the conditional sort by week_number. -/
def weekly_out4 (s : Store) (uid : Nat) : DF :=
  if (weekly_out3 s uid).cols.contains "week_number" then
    { weekly_out3 s uid with
      rows := sortByKey (fun r => r "week_number") (weekly_out3 s uid).rows }
  else weekly_out3 s uid

/-- utils.py `load_weekly_df` after the two early-return checks: group,
merge, sort, then assign `weekly_weight_loss = avg_weight_kg.diff(1)`. -/
def load_weekly_core (s : Store) (uid : Nat) : DF :=
  { cols := (weekly_out4 s uid).cols ++ ["weekly_weight_loss"]
    rows := diffAssign none (weekly_out4 s uid).rows }

/-- utils.py `load_weekly_df`: early-returns an ensured empty frame when the
user has no daily rows or the daily frame has no week_id column, otherwise
runs the weekly pipeline and ensures the required columns. -/
def load_weekly_df (s : Store) (uid : Nat) : DF :=
  if (load_daily_df s uid).isEmpty then ensure_weekly_cols { cols := [], rows := [] }
  else if !((load_daily_df s uid).cols.contains "week_id") then
    ensure_weekly_cols { cols := [], rows := [] }
  else ensure_weekly_cols (load_weekly_core s uid)

/-! ### Concrete stores used to instantiate the theorems -/

/-- A store with no rows at all (a fresh database). -/
def noUserStore : Store :=
  { users := [], weeks := [], dailies := [], measurements := [], wellbeings := []
    adherences := [], nextUserId := 1, nextWeekId := 1, nextDailyId := 1 }

/-- A store with the bootstrap user and nothing else. -/
def oneUserStore : Store :=
  { users := [⟨1, "You", none, none, none, "metric"⟩]
    weeks := [], dailies := [], measurements := [], wellbeings := []
    adherences := [], nextUserId := 2, nextWeekId := 1, nextDailyId := 1 }

/-- A populated store: user 1 has three consecutive weeks with daily weights
averaging 90, 88.5 and 88.5 kg and a weekly check-in on week 1; user 2 has
a week of their own with one daily row, to exercise cross-user behaviour. -/
def demoStore : Store :=
  { users := [⟨1, "You", none, none, none, "metric"⟩, ⟨2, "Other", none, none, none, "metric"⟩]
    weeks := [⟨1, 1, 1, 0⟩, ⟨2, 1, 2, 7⟩, ⟨3, 1, 3, 14⟩, ⟨4, 2, 1, 0⟩]
    dailies :=
      [⟨1, 1, 0, some 1, some 90, some 10000, none⟩,
       ⟨2, 1, 7, some 2, some (177 / 2), none, none⟩,
       ⟨3, 1, 14, some 3, some (177 / 2), none, none⟩,
       ⟨4, 2, 0, some 4, some 70, none, none⟩]
    measurements := [⟨1, 1, 1, some 12, none, none, none, none, some 36⟩]
    wellbeings := [⟨1, 1, 1, some 1, some 2, some 1⟩]
    adherences := [⟨1, 1, 1, some 9, some 8⟩]
    nextUserId := 3, nextWeekId := 5, nextDailyId := 5 }

/-! ### Claim theorems -/

/-- C7: for every non-negative step count s, the derived-kilometres function
used by the dashboard, data-entry, CSV-import and manage-data screens equals
s * 8 / 8900 (as 1780 * 5 = 8900); 12319 steps round to 11.07 km at 2
decimal places. -/
theorem C7_steps_to_km_formula :
    (∀ s : ℕ,
      dashboard_steps_to_km (s : ℚ) = (s : ℚ) * 8 / 8900
      ∧ entry_steps_to_km (some (s : ℚ)) = some ((s : ℚ) * 8 / 8900)
      ∧ import_steps_to_km (s : ℚ) = (s : ℚ) * 8 / 8900
      ∧ manage_steps_to_km (s : ℚ) = (s : ℚ) * 8 / 8900)
    ∧ round2 (dashboard_steps_to_km (12319 : ℚ)) = 1107 / 100 := by
  constructor
  · intro s
    refine ⟨?_, ?_, ?_, ?_⟩ <;>
      simp only [dashboard_steps_to_km, entry_steps_to_km, import_steps_to_km,
        manage_steps_to_km, Option.map_some] <;> norm_num
  · rw [round2, dashboard_steps_to_km]
    norm_num [round_eq]

/-- C5: on a store with zero User rows, one run of the home-screen bootstrap
creates exactly one User row named "You" with absent email/height/goal and
units "metric"; on a store that already has a User row the bootstrap
changes nothing, so a second run never adds a second user. -/
theorem C5_bootstrap_user (s : Store) :
    (s.users = [] →
      (bootstrap_user s).1.users =
        [{ id := s.nextUserId, name := "You", email := none, height_cm := none,
           goal_weight_kg := none, units := "metric" }])
    ∧ (s.users ≠ [] → (bootstrap_user s).1 = s) := by
  constructor
  · intro h
    simp [bootstrap_user, h]
  · intro h
    match hu : s.users with
    | [] => exact absurd hu h
    | u :: us => simp [bootstrap_user, hu]

/-- C5 witness: a fresh store gets exactly the bootstrap user, and a second
bootstrap run on the resulting store is the identity. -/
theorem C5_bootstrap_user_witness :
    (bootstrap_user noUserStore).1.users =
      [{ id := 1, name := "You", email := none, height_cm := none,
         goal_weight_kg := none, units := "metric" }]
    ∧ (bootstrap_user (bootstrap_user noUserStore).1).1 = (bootstrap_user noUserStore).1 :=
  ⟨(C5_bootstrap_user noUserStore).1 rfl,
   (C5_bootstrap_user (bootstrap_user noUserStore).1).2 (by decide)⟩

/-- C3: a bulk deletion attempt in either mode with confirmation text other
than "DELETE" leaves the store untouched and reports an error. -/
theorem C3_delete_confirmation_guard (s : Store) (confirm : String)
    (d_from d_to wk_from wk_to : Int) (aw de aw2 dw2 : Bool)
    (h : confirm ≠ "DELETE") :
    delete_by_date s confirm d_from d_to aw de = (s, true)
    ∧ delete_by_week s confirm wk_from wk_to aw2 dw2 = (s, true) := by
  constructor <;> simp [delete_by_date, delete_by_week, h]

/-- C3 witness: typing "delete" (wrong case) deletes nothing in either mode
and reports the error. -/
theorem C3_delete_confirmation_guard_witness :
    delete_by_date demoStore "delete" 0 14 true true = (demoStore, true)
    ∧ delete_by_week demoStore "delete" 1 3 true true = (demoStore, true) :=
  C3_delete_confirmation_guard demoStore "delete" 0 14 1 3 true true true true (by decide)

/-- A confirmed date-mode deletion leaves exactly the out-of-range daily
rows, whatever the weekly options are. -/
lemma delete_by_date_dailies (s : Store) (d_from d_to : Int) (aw de : Bool) :
    (delete_by_date s "DELETE" d_from d_to aw de).1.dailies
      = s.dailies.filter (fun dm => !(dateInRange d_from d_to dm.date)) := by
  unfold delete_by_date
  simp only [bne_self_eq_false, Bool.false_eq_true, if_false]
  split <;> [skip; rfl]
  split <;> [split <;> rfl; rfl]

/-- Confirmed week-mode deletion never changes the daily rows' week-number
selection: the weeks surviving with `delete_weeks2` on are exactly those
whose id is not among the selected ids (or everything, when nothing was
selected). -/
lemma delete_by_week_weeks (s : Store) (wk_from wk_to : Int) (aw2 : Bool) :
    (delete_by_week s "DELETE" wk_from wk_to aw2 true).1.weeks
      = s.weeks.filter (fun w =>
          !(((s.weeks.filter (fun w2 =>
                decide (wk_from ≤ w2.week_number) && decide (w2.week_number ≤ wk_to))).map
              WeekR.id).contains w.id))
    ∨ ((delete_by_week s "DELETE" wk_from wk_to aw2 true).1 = s
        ∧ (s.weeks.filter (fun w2 =>
            decide (wk_from ≤ w2.week_number) && decide (w2.week_number ≤ wk_to))) = []) := by
  unfold delete_by_week
  simp only [bne_self_eq_false, Bool.false_eq_true, if_false]
  split
  · left
    cases aw2 <;> rfl
  · right
    rename_i hsel
    simp only [Bool.not_eq_true', Bool.not_eq_false] at hsel
    rw [List.isEmpty_iff, List.map_eq_nil_iff] at hsel
    exact ⟨rfl, hsel⟩

/-- C10: the bulk deletions are not scoped to the operating user — a
confirmed date-range deletion leaves no DailyMetric row dated inside
[from, to] for any user, and a confirmed week-number deletion (with the
week-row option on) leaves no Week row numbered inside [from, to] for any
user. -/
theorem C10_bulk_delete_unscoped (s : Store) (d_from d_to wk_from wk_to : Int)
    (aw de aw2 : Bool) :
    ((delete_by_date s "DELETE" d_from d_to aw de).1.dailies.filter
        (fun dm => dateInRange d_from d_to dm.date)) = []
    ∧ ((delete_by_week s "DELETE" wk_from wk_to aw2 true).1.weeks.filter
        (fun w => decide (wk_from ≤ w.week_number) && decide (w.week_number ≤ wk_to))) = [] := by
  constructor
  · rw [delete_by_date_dailies, List.filter_filter]
    simp
  · rcases delete_by_week_weeks s wk_from wk_to aw2 with h | h
    · rw [h, List.filter_filter]
      rw [List.filter_eq_nil_iff]
      intro w hw hcon
      obtain ⟨hr, hnc⟩ := Bool.and_eq_true_iff.mp hcon
      have hmem : w ∈ s.weeks.filter (fun w2 =>
          decide (wk_from ≤ w2.week_number) && decide (w2.week_number ≤ wk_to)) :=
        List.mem_filter.mpr ⟨hw, hr⟩
      have hid : w.id ∈ (s.weeks.filter (fun w2 =>
          decide (wk_from ≤ w2.week_number) && decide (w2.week_number ≤ wk_to))).map WeekR.id :=
        List.mem_map_of_mem _ hmem
      have : (((s.weeks.filter (fun w2 =>
          decide (wk_from ≤ w2.week_number) && decide (w2.week_number ≤ wk_to))).map
            WeekR.id).contains w.id) = true :=
        List.elem_eq_true_of_mem hid
      rw [this] at hnc
      exact absurd hnc (by decide)
    · rw [h.1, h.2]

/-- Resolving a week never touches the daily table. -/
lemma gocw_dailies (s : Store) (uid : Nat) (d : Int) :
    (get_or_create_week s uid d).2.dailies = s.dailies := by
  simp only [get_or_create_week]
  split <;> rfl

/-- CSV week resolution never touches the daily table. -/
lemma import_resolve_week_dailies (s : Store) (uid : Nat) (wn rstart : Int) :
    (import_resolve_week s uid wn rstart).2.dailies = s.dailies := by
  simp only [import_resolve_week]
  split <;> rfl

/-- Membership after an in-place upsert map: the element is either an
original or the updated row. -/
lemma mem_upsert_map {l : List DailyR} {dm upd : DailyR} {rid : Nat}
    (h : dm ∈ l.map (fun x => if x.id == rid then upd else x)) :
    dm ∈ l ∨ dm = upd := by
  rcases List.mem_map.mp h with ⟨x, hx, hfx⟩
  by_cases hid : (x.id == rid) = true
  · rw [if_pos hid] at hfx
    exact Or.inr hfx.symm
  · rw [if_neg hid] at hfx
    subst hfx
    exact Or.inl hx

/-- Membership after appending one element. -/
lemma mem_append_one {α : Type} {l : List α} {x dm : α} (h : dm ∈ l ++ [x]) :
    dm ∈ l ∨ dm = x := by
  rcases List.mem_append.mp h with h | h
  · exact Or.inl h
  · exact Or.inr (List.mem_singleton.mp h)

/-- C1 counterexample: saving a daily entry with a zero steps input stores
steps as absent but run_km as 0.0 (present), contradicting the claim that
run_km is absent whenever stored steps is absent. -/
theorem C1_counterexample :
    ∃ dm ∈ (save_daily_entry oneUserStore 1 20 0 0).dailies,
      dm.steps = none ∧ dm.run_km ≠ none := by
  decide

/-- C1 amended: every DailyMetric row produced or updated by the CSV import
or the manage-data daily save has run_km derived from its stored steps by
steps * 8 / 8900 when steps is present and absent when steps is absent; a
data-entry daily save instead always stores run_km = input * 8 / 8900
(present even for a zero input, where stored steps is absent). -/
theorem C1_run_km_derivation (s : Store) (uid : Nat) (d : Int) (weight : ℚ)
    (steps wn rstart rdate mdate : Int) (rw mw : Option ℚ) (rs ms : Option Int)
    (rid : Nat) (mwid : Option Nat) :
    (∀ dm ∈ (csv_import_daily s uid wn rstart rdate rw rs).dailies,
        dm ∈ s.dailies
        ∨ (dm.steps = rs
            ∧ dm.run_km = Option.map (fun n : Int => import_steps_to_km (n : ℚ)) rs))
    ∧ (∀ dm ∈ (manage_save_daily_row s rid mdate mwid mw ms).dailies,
        dm ∈ s.dailies
        ∨ (dm.steps = ms
            ∧ dm.run_km = Option.map (fun n : Int => manage_steps_to_km (n : ℚ)) ms))
    ∧ (∀ dm ∈ (save_daily_entry s uid d weight steps).dailies,
        dm ∈ s.dailies
        ∨ (dm.steps = (if steps = 0 then none else some steps)
            ∧ dm.run_km = entry_steps_to_km (some (steps : ℚ)))) := by
  refine ⟨?_, ?_, ?_⟩
  · intro dm hdm
    have hd : (import_resolve_week s uid wn rstart).2.dailies = s.dailies :=
      import_resolve_week_dailies s uid wn rstart
    simp only [csv_import_daily] at hdm
    split at hdm
    · simp only [Store.dailies] at hdm
      rw [hd] at hdm
      rcases mem_upsert_map hdm with h | h
      · exact Or.inl h
      · subst h
        exact Or.inr ⟨rfl, rfl⟩
    · simp only [Store.dailies] at hdm
      rw [hd] at hdm
      rcases mem_append_one hdm with h | h
      · exact Or.inl h
      · subst h
        exact Or.inr ⟨rfl, rfl⟩
  · intro dm hdm
    simp only [manage_save_daily_row] at hdm
    split at hdm
    · exact Or.inl hdm
    · simp only [Store.dailies] at hdm
      rcases mem_upsert_map hdm with h | h
      · exact Or.inl h
      · subst h
        right
        cases ms <;> cases mwid <;> exact ⟨rfl, rfl⟩
  · intro dm hdm
    have hd : (get_or_create_week s uid d).2.dailies = s.dailies := gocw_dailies s uid d
    simp only [save_daily_entry] at hdm
    rw [hd] at hdm
    rcases mem_append_one hdm with h | h
    · exact Or.inl h
    · subst h
      right
      refine ⟨?_, rfl⟩
      by_cases h0 : steps = 0 <;> simp [h0]

/-- C1 witness: a CSV-imported daily row with blank steps stores absent
steps and absent run_km. -/
theorem C1_run_km_derivation_witness :
    ({ id := 1, user_id := 1, date := 2, week_id := some 1, weight_kg := none,
       steps := none, run_km := none } : DailyR) ∈ oneUserStore.dailies
    ∨ (((none : Option Int) = none)
        ∧ ((none : Option ℚ)
            = Option.map (fun n : Int => import_steps_to_km (n : ℚ)) (none : Option Int))) :=
  (C1_run_km_derivation oneUserStore 1 0 0 0 1 0 2 0 none none none none 1 none).1
    { id := 1, user_id := 1, date := 2, week_id := some 1, weight_kg := none,
      steps := none, run_km := none }
    (by decide)

/-- The CSV-import daily upsert never changes the week table beyond what
week resolution did. -/
lemma csv_import_daily_weeks (s : Store) (uid : Nat) (wn rstart rdate : Int)
    (rw : Option ℚ) (rs : Option Int) :
    (csv_import_daily s uid wn rstart rdate rw rs).weeks
      = (import_resolve_week s uid wn rstart).2.weeks := by
  simp only [csv_import_daily]
  split <;> rfl

/-- C2 counterexample: importing a CSV row with week_number 5 into a store
where the user has no weeks creates a week numbered 5, not 1. -/
theorem C2_counterexample :
    oneUserStore.weeks = []
    ∧ (csv_import_daily oneUserStore 1 5 0 2 none none).weeks.map WeekR.week_number = [5]
    ∧ (5 : Int) ≠ 1 := by
  refine ⟨rfl, by decide, by decide⟩

/-- C2 amended: a week created by the data-entry week resolution gets
week_number 1 when the user has no weeks and current-maximum + 1 otherwise
(regardless of start_date order); a week created by the CSV import instead
carries the week_number taken from the CSV row. -/
theorem C2_week_numbering (s : Store) (uid : Nat) (d wn rstart rdate : Int)
    (rw : Option ℚ) (rs : Option Int)
    (hnew : s.weeks.find?
      (fun w => w.user_id == uid && w.start_date == monday_start d) = none)
    (hnew2 : s.weeks.find?
      (fun w => w.user_id == uid && w.start_date == rstart) = none) :
    ((s.weeks.filter (fun w => w.user_id == uid)) = [] →
        (get_or_create_week s uid d).1.week_number = 1)
    ∧ (∀ m : Int,
        ((s.weeks.filter (fun w => w.user_id == uid)).map WeekR.week_number).max? = some m →
        (get_or_create_week s uid d).1.week_number = m + 1)
    ∧ ((csv_import_daily s uid wn rstart rdate rw rs).weeks.map WeekR.week_number
        = s.weeks.map WeekR.week_number ++ [wn]) := by
  refine ⟨?_, ?_, ?_⟩
  · intro hfil
    simp [get_or_create_week, hnew, next_week_number, hfil]
  · intro m hm
    simp [get_or_create_week, hnew, next_week_number, hm]
  · rw [csv_import_daily_weeks]
    simp [import_resolve_week, hnew2]

/-- C2 witness: a fresh user's first resolved week is numbered 1; with
existing weeks numbered 1..3 a new date resolves to week 4; a CSV import of
week_number 9 creates a week numbered 9. -/
theorem C2_week_numbering_witness :
    (get_or_create_week oneUserStore 1 16).1.week_number = 1
    ∧ (get_or_create_week demoStore 1 21).1.week_number = 3 + 1
    ∧ ((csv_import_daily demoStore 1 9 21 22 none none).weeks.map WeekR.week_number
        = demoStore.weeks.map WeekR.week_number ++ [9]) :=
  ⟨(C2_week_numbering oneUserStore 1 16 9 21 22 none none (by decide) (by decide)).1 rfl,
   (C2_week_numbering demoStore 1 21 9 21 22 none none (by decide) (by decide)).2.1 3
     (by decide),
   (C2_week_numbering demoStore 1 21 9 21 22 none none (by decide) (by decide)).2.2⟩

/-- C8: week resolution is idempotent — on a store holding at most one Week
for (user, Monday of d), resolving d twice returns the same Week both
times, the second resolution changes nothing, and exactly one Week row for
that Monday remains after the first resolution. -/
theorem C8_week_resolution_idempotent (s : Store) (uid : Nat) (d : Int)
    (h : (s.weeks.filter
        (fun w => w.user_id == uid && w.start_date == monday_start d)).length ≤ 1) :
    (get_or_create_week (get_or_create_week s uid d).2 uid d).1
        = (get_or_create_week s uid d).1
    ∧ (get_or_create_week (get_or_create_week s uid d).2 uid d).2
        = (get_or_create_week s uid d).2
    ∧ ((get_or_create_week s uid d).2.weeks.filter
        (fun w => w.user_id == uid && w.start_date == monday_start d)).length = 1 := by
  cases hf : s.weeks.find? (fun w => w.user_id == uid && w.start_date == monday_start d) with
  | some wk =>
    have h1 : get_or_create_week s uid d = (wk, s) := by
      simp [get_or_create_week, hf]
    have hp : (wk.user_id == uid && wk.start_date == monday_start d) = true :=
      @List.find?_some WeekR
        (fun w => w.user_id == uid && w.start_date == monday_start d) wk s.weeks hf
    have hmem : wk ∈ s.weeks := List.mem_of_find?_eq_some hf
    have hmemf : wk ∈ s.weeks.filter
        (fun w => w.user_id == uid && w.start_date == monday_start d) :=
      List.mem_filter.mpr ⟨hmem, hp⟩
    have hlen : 0 < (s.weeks.filter
        (fun w => w.user_id == uid && w.start_date == monday_start d)).length :=
      List.length_pos.mpr (List.ne_nil_of_mem hmemf)
    refine ⟨?_, ?_, ?_⟩ <;> (simp [h1]; try omega)
  | none =>
    have hfilnil : s.weeks.filter
        (fun w => w.user_id == uid && w.start_date == monday_start d) = [] :=
      List.filter_eq_nil_iff.mpr (List.find?_eq_none.mp hf)
    refine ⟨?_, ?_, ?_⟩ <;>
      simp [get_or_create_week, hf, List.find?_append, List.filter_append, hfilnil]

/-- C8 witness: resolving 2026 day 16 (Monday 14) twice on the demo store
returns week 3 both times, changes nothing, and leaves one matching week. -/
theorem C8_week_resolution_idempotent_witness :
    (get_or_create_week (get_or_create_week demoStore 1 16).2 1 16).1
        = (get_or_create_week demoStore 1 16).1
    ∧ (get_or_create_week (get_or_create_week demoStore 1 16).2 1 16).2
        = (get_or_create_week demoStore 1 16).2
    ∧ ((get_or_create_week demoStore 1 16).2.weeks.filter
        (fun w => w.user_id == 1 && w.start_date == monday_start 16)).length = 1 :=
  C8_week_resolution_idempotent demoStore 1 16 (by decide)

/-- A list does not contain an element that is not a member. -/
lemma contains_eq_false_of_not_mem {l : List Nat} {a : Nat} (h : a ∉ l) :
    l.contains a = false := by
  cases hc : l.contains a with
  | false => rfl
  | true => exact absurd (List.mem_of_elem_eq_true hc) h

/-- The list of week ids a confirmed date-range deletion considers fully
empty: touched by a deleted daily, with no remaining daily afterwards. -/
def emptyWeekIds (s : Store) (d_from d_to : Int) : List Nat :=
  ((s.dailies.filter (fun dm => dateInRange d_from d_to dm.date)).filterMap
      DailyR.week_id).dedup.filter
    (fun wid => ((s.dailies.filter (fun dm => !(dateInRange d_from d_to dm.date))).filter
        (fun dm => dm.week_id == some wid)).isEmpty)

/-- Purging by a contained key: filtering away the rows whose key is in
`bad` leaves nothing with a key contained in `bad`. -/
lemma filter_purge {α : Type} (l : List α) (f : α → Nat) (wid : Nat) (bad : List Nat)
    (hcont : bad.contains wid = true) :
    ((l.filter (fun m => !(bad.contains (f m)))).filter (fun m => f m == wid)) = [] := by
  rw [List.filter_filter, List.filter_eq_nil_iff]
  intro m _ hco
  obtain ⟨hbe, hnc⟩ := Bool.and_eq_true_iff.mp hco
  rw [eq_of_beq hbe, hcont] at hnc
  exact absurd hnc (by decide)

/-- Keeping by a non-contained key: filtering away the rows whose key is in
`bad` keeps every row with a key not in `bad`. -/
lemma filter_keep {α : Type} (l : List α) (f : α → Nat) (wid : Nat) (bad : List Nat)
    (hcont : bad.contains wid = false) :
    ((l.filter (fun m => !(bad.contains (f m)))).filter (fun m => f m == wid))
      = l.filter (fun m => f m == wid) := by
  rw [List.filter_filter]
  apply List.filter_congr
  intro m _
  cases hbe : (f m == wid) with
  | false => simp [hbe]
  | true =>
    rw [eq_of_beq hbe, hcont]
    rfl

/-- For a week detected as fully empty, a confirmed date-range deletion with
the weekly option on removes all its Measurement/Wellbeing/Adherence rows,
and its Week row too when the empty-week option is also on. -/
lemma delete_by_date_empty_spec (s : Store) (d_from d_to : Int) (de : Bool) (wid : Nat)
    (hemp : wid ∈ emptyWeekIds s d_from d_to) :
    ((delete_by_date s "DELETE" d_from d_to true de).1.measurements.filter
        (fun m => m.week_id == wid)) = []
    ∧ ((delete_by_date s "DELETE" d_from d_to true de).1.wellbeings.filter
        (fun m => m.week_id == wid)) = []
    ∧ ((delete_by_date s "DELETE" d_from d_to true de).1.adherences.filter
        (fun m => m.week_id == wid)) = []
    ∧ (de = true → ((delete_by_date s "DELETE" d_from d_to true de).1.weeks.filter
        (fun w2 => w2.id == wid)) = []) := by
  have hdedup : wid ∈ ((s.dailies.filter (fun dm => dateInRange d_from d_to dm.date)).filterMap
      DailyR.week_id).dedup := (List.mem_filter.mp (by rw [emptyWeekIds] at hemp; exact hemp)).1
  have htne : (((s.dailies.filter (fun dm => dateInRange d_from d_to dm.date)).filterMap
      DailyR.week_id).dedup).isEmpty = false := by
    cases hi : (((s.dailies.filter (fun dm => dateInRange d_from d_to dm.date)).filterMap
        DailyR.week_id).dedup).isEmpty with
    | false => rfl
    | true =>
      rw [List.isEmpty_iff] at hi
      rw [hi] at hdedup
      cases hdedup
  have hcont : (emptyWeekIds s d_from d_to).contains wid = true :=
    List.elem_eq_true_of_mem hemp
  have hene : (emptyWeekIds s d_from d_to).isEmpty = false := by
    cases hi : (emptyWeekIds s d_from d_to).isEmpty with
    | false => rfl
    | true =>
      rw [List.isEmpty_iff] at hi
      rw [hi] at hemp
      cases hemp
  rw [emptyWeekIds] at hcont hene
  unfold delete_by_date
  simp only [bne_self_eq_false, Bool.false_eq_true, if_false]
  split
  · split
    · cases de with
      | false =>
        refine ⟨?_, ?_, ?_, ?_⟩
        · exact filter_purge s.measurements MeasR.week_id wid _ hcont
        · exact filter_purge s.wellbeings WellR.week_id wid _ hcont
        · exact filter_purge s.adherences AdhR.week_id wid _ hcont
        · intro hde
          cases hde
      | true =>
        refine ⟨?_, ?_, ?_, ?_⟩
        · exact filter_purge s.measurements MeasR.week_id wid _ hcont
        · exact filter_purge s.wellbeings WellR.week_id wid _ hcont
        · exact filter_purge s.adherences AdhR.week_id wid _ hcont
        · intro _
          exact filter_purge s.weeks WeekR.id wid _ hcont
    · rename_i h2
      exact absurd (by rw [hene]; rfl) h2
  · rename_i h1
    exact absurd (by rw [htne]; rfl) h1

/-- For a week not detected as fully empty, a confirmed date-range deletion
keeps every one of its Measurement/Wellbeing/Adherence rows and its Week
row, whatever the options. -/
lemma delete_by_date_keep_spec (s : Store) (d_from d_to : Int) (de : Bool) (wid : Nat)
    (hnot : wid ∉ emptyWeekIds s d_from d_to) :
    ((delete_by_date s "DELETE" d_from d_to true de).1.measurements.filter
        (fun m => m.week_id == wid)) = s.measurements.filter (fun m => m.week_id == wid)
    ∧ ((delete_by_date s "DELETE" d_from d_to true de).1.wellbeings.filter
        (fun m => m.week_id == wid)) = s.wellbeings.filter (fun m => m.week_id == wid)
    ∧ ((delete_by_date s "DELETE" d_from d_to true de).1.adherences.filter
        (fun m => m.week_id == wid)) = s.adherences.filter (fun m => m.week_id == wid)
    ∧ ((delete_by_date s "DELETE" d_from d_to true de).1.weeks.filter
        (fun w2 => w2.id == wid)) = s.weeks.filter (fun w2 => w2.id == wid) := by
  have hcont : (emptyWeekIds s d_from d_to).contains wid = false :=
    contains_eq_false_of_not_mem hnot
  rw [emptyWeekIds] at hcont
  unfold delete_by_date
  simp only [bne_self_eq_false, Bool.false_eq_true, if_false]
  split
  · split
    · cases de with
      | false =>
        refine ⟨?_, ?_, ?_, rfl⟩
        · exact filter_keep s.measurements MeasR.week_id wid _ hcont
        · exact filter_keep s.wellbeings WellR.week_id wid _ hcont
        · exact filter_keep s.adherences AdhR.week_id wid _ hcont
      | true =>
        refine ⟨?_, ?_, ?_, ?_⟩
        · exact filter_keep s.measurements MeasR.week_id wid _ hcont
        · exact filter_keep s.wellbeings WellR.week_id wid _ hcont
        · exact filter_keep s.adherences AdhR.week_id wid _ hcont
        · exact filter_keep s.weeks WeekR.id wid _ hcont
    · exact ⟨rfl, rfl, rfl, rfl⟩
  · exact ⟨rfl, rfl, rfl, rfl⟩

/-- C4: in a confirmed date-range deletion with the weekly option on, a week
whose every linked daily lies in range loses all its weekly check-in rows
(and its Week row when the empty-week option is also on); a week keeping a
linked daily outside the range keeps every weekly row and its Week row. -/
theorem C4_empty_week_cascade (s : Store) (d_from d_to : Int) (de : Bool) (w : WeekR)
    (hw : w ∈ s.weeks) :
    ((∃ dm ∈ s.dailies, dm.week_id = some w.id) →
      (∀ dm ∈ s.dailies, dm.week_id = some w.id → dateInRange d_from d_to dm.date = true) →
      (((delete_by_date s "DELETE" d_from d_to true de).1.measurements.filter
          (fun m => m.week_id == w.id)) = []
        ∧ ((delete_by_date s "DELETE" d_from d_to true de).1.wellbeings.filter
          (fun m => m.week_id == w.id)) = []
        ∧ ((delete_by_date s "DELETE" d_from d_to true de).1.adherences.filter
          (fun m => m.week_id == w.id)) = []
        ∧ (de = true → ((delete_by_date s "DELETE" d_from d_to true de).1.weeks.filter
          (fun w2 => w2.id == w.id)) = [])))
    ∧ ((∃ dm ∈ s.dailies, dm.week_id = some w.id ∧ dateInRange d_from d_to dm.date = false) →
      (((delete_by_date s "DELETE" d_from d_to true de).1.measurements.filter
          (fun m => m.week_id == w.id)) = s.measurements.filter (fun m => m.week_id == w.id)
        ∧ ((delete_by_date s "DELETE" d_from d_to true de).1.wellbeings.filter
          (fun m => m.week_id == w.id)) = s.wellbeings.filter (fun m => m.week_id == w.id)
        ∧ ((delete_by_date s "DELETE" d_from d_to true de).1.adherences.filter
          (fun m => m.week_id == w.id)) = s.adherences.filter (fun m => m.week_id == w.id)
        ∧ w ∈ (delete_by_date s "DELETE" d_from d_to true de).1.weeks)) := by
  constructor
  · intro hex hall
    have hemp : w.id ∈ emptyWeekIds s d_from d_to := by
      rw [emptyWeekIds]
      apply List.mem_filter.mpr
      constructor
      · apply List.mem_dedup.mpr
        apply List.mem_filterMap.mpr
        obtain ⟨dm, hdm, hwid⟩ := hex
        exact ⟨dm, List.mem_filter.mpr ⟨hdm, hall dm hdm hwid⟩, hwid⟩
      · have hnil : ((s.dailies.filter
            (fun dm => !(dateInRange d_from d_to dm.date))).filter
            (fun dm => dm.week_id == some w.id)) = [] := by
          rw [List.filter_filter, List.filter_eq_nil_iff]
          intro dm hdm hco
          obtain ⟨hbe, hnp⟩ := Bool.and_eq_true_iff.mp hco
          have heq : dm.week_id = some w.id := eq_of_beq hbe
          rw [hall dm hdm heq] at hnp
          exact absurd hnp (by decide)
        rw [hnil]
        rfl
    exact delete_by_date_empty_spec s d_from d_to de w.id hemp
  · intro hex2
    have hnot : w.id ∉ emptyWeekIds s d_from d_to := by
      rw [emptyWeekIds]
      intro hmem
      have hie := (List.mem_filter.mp hmem).2
      rw [List.isEmpty_iff] at hie
      obtain ⟨dm, hdm, hwid, hout⟩ := hex2
      have hdm1 : dm ∈ s.dailies.filter (fun dm => !(dateInRange d_from d_to dm.date)) :=
        List.mem_filter.mpr ⟨hdm, by rw [hout]; rfl⟩
      have hdm2 : dm ∈ (s.dailies.filter
          (fun dm => !(dateInRange d_from d_to dm.date))).filter
          (fun dm2 => dm2.week_id == some w.id) :=
        List.mem_filter.mpr ⟨hdm1, by rw [hwid]; exact beq_self_eq_true _⟩
      rw [hie] at hdm2
      cases hdm2
    obtain ⟨hm, hwb, hadh, hwk⟩ := delete_by_date_keep_spec s d_from d_to de w.id hnot
    refine ⟨hm, hwb, hadh, ?_⟩
    have hwmem : w ∈ s.weeks.filter (fun w2 => w2.id == w.id) :=
      List.mem_filter.mpr ⟨hw, beq_self_eq_true _⟩
    rw [← hwk] at hwmem
    exact (List.mem_filter.mp hwmem).1

/-- C4 witness: deleting day 0 on the demo store empties week 1 (its
check-in rows and the Week row go) while week 3, whose daily is day 14,
keeps its rows. -/
theorem C4_empty_week_cascade_witness :
    ((delete_by_date demoStore "DELETE" 0 0 true true).1.measurements.filter
        (fun m => m.week_id == 1)) = []
    ∧ (((delete_by_date demoStore "DELETE" 0 0 true true).1.weeks.filter
        (fun w2 => w2.id == 1)) = [])
    ∧ ((delete_by_date demoStore "DELETE" 0 0 true true).1.measurements.filter
        (fun m => m.week_id == 3))
      = demoStore.measurements.filter (fun m => m.week_id == 3)
    ∧ (⟨3, 1, 3, 14⟩ : WeekR) ∈ (delete_by_date demoStore "DELETE" 0 0 true true).1.weeks := by
  obtain ⟨ha, _, _, hd⟩ :=
    (C4_empty_week_cascade demoStore 0 0 true ⟨1, 1, 1, 0⟩ (by decide)).1
      (by decide) (by decide)
  obtain ⟨ha2, _, _, hd2⟩ :=
    (C4_empty_week_cascade demoStore 0 0 true ⟨3, 1, 3, 14⟩ (by decide)).2
      (by decide)
  exact ⟨ha, hd rfl, ha2, hd2⟩

/-- A column present before the `_ensure_weekly_cols` loop stays present. -/
lemma mem_cols_foldl_addMissing (l : List String) (df : DF) (c : String)
    (h : c ∈ df.cols) : c ∈ (l.foldl addMissingCol df).cols := by
  induction l generalizing df with
  | nil => exact h
  | cons a t ih =>
    rw [List.foldl_cons]
    apply ih
    unfold addMissingCol
    split
    · exact h
    · exact List.mem_append.mpr (Or.inl h)

/-- Every column in the `_ensure_weekly_cols` loop's list ends up present. -/
lemma mem_list_foldl_addMissing (l : List String) (df : DF) (c : String)
    (h : c ∈ l) : c ∈ (l.foldl addMissingCol df).cols := by
  induction l generalizing df with
  | nil => cases h
  | cons a t ih =>
    rw [List.foldl_cons]
    rcases List.mem_cons.mp h with rfl | h2
    · apply mem_cols_foldl_addMissing
      unfold addMissingCol
      split
      · rename_i hc
        exact List.mem_of_elem_eq_true hc
      · exact List.mem_append.mpr (Or.inr (List.mem_singleton.mpr rfl))
    · exact ih _ h2

/-- `_ensure_weekly_cols` guarantees every required column. -/
lemma ensure_mem (df : DF) (c : String) (h : c ∈ REQUIRED_WEEKLY_COLS) :
    c ∈ (ensure_weekly_cols df).cols := by
  unfold ensure_weekly_cols
  split
  · exact h
  · exact mem_list_foldl_addMissing _ _ _ h

/-- C6: the weekly frame always contains every one of the 17 required
columns, and for a user with no daily rows it is an empty frame that still
carries exactly those columns. -/
theorem C6_weekly_frame_columns (s : Store) (uid : Nat) :
    (∀ c ∈ REQUIRED_WEEKLY_COLS, c ∈ (load_weekly_df s uid).cols)
    ∧ (s.dailies.filter (fun dm => dm.user_id == uid) = [] →
        (load_weekly_df s uid).rows = []
        ∧ (load_weekly_df s uid).cols = REQUIRED_WEEKLY_COLS) := by
  constructor
  · intro c hc
    unfold load_weekly_df
    split
    · exact ensure_mem _ _ hc
    · split
      · exact ensure_mem _ _ hc
      · exact ensure_mem _ _ hc
  · intro hnil
    have hemp : (load_daily_df s uid).isEmpty = true := by
      unfold load_daily_df DF.isEmpty
      rw [hnil]
      rfl
    unfold load_weekly_df
    rw [if_pos hemp]
    exact ⟨rfl, rfl⟩

/-- C6 witness: the populated store's weekly frame contains the
weekly_weight_loss column, and a store without dailies yields the empty
frame with exactly the required columns. -/
theorem C6_weekly_frame_columns_witness :
    "weekly_weight_loss" ∈ (load_weekly_df demoStore 1).cols
    ∧ (load_weekly_df oneUserStore 1).rows = []
    ∧ (load_weekly_df oneUserStore 1).cols = REQUIRED_WEEKLY_COLS :=
  ⟨(C6_weekly_frame_columns demoStore 1).1 "weekly_weight_loss" (by decide),
   ((C6_weekly_frame_columns oneUserStore 1).2 rfl).1,
   ((C6_weekly_frame_columns oneUserStore 1).2 rfl).2⟩

/-- Updating a row at a column reads back the new value. -/
lemma updateRow_self (r : Row) (c : String) (v : Cell) : updateRow r c v c = v := by
  simp [updateRow]

/-- Updating a row at a column leaves other columns unchanged. -/
lemma updateRow_other (r : Row) (c c2 : String) (v : Cell) (h : c2 ≠ c) :
    updateRow r c v c2 = r c2 := by
  simp [updateRow, h]

/-- The diff assignment writes exactly the pandas `diff(1)` series of the
avg_weight_kg column into weekly_weight_loss. -/
lemma diffAssign_wwl (prev : Option Cell) (rows : List Row) :
    (diffAssign prev rows).map (fun r => r "weekly_weight_loss")
      = diffSeriesAux prev (rows.map (fun r => r "avg_weight_kg")) := by
  induction rows generalizing prev with
  | nil => rfl
  | cons r rs ih =>
    simp only [diffAssign, diffSeriesAux, List.map_cons, updateRow_self, ih]

/-- The diff assignment leaves every other column untouched. -/
lemma diffAssign_other (prev : Option Cell) (rows : List Row) (c : String)
    (h : ¬ c = "weekly_weight_loss") :
    (diffAssign prev rows).map (fun r => r c) = rows.map (fun r => r c) := by
  induction rows generalizing prev with
  | nil => rfl
  | cons r rs ih =>
    simp only [diffAssign, List.map_cons, updateRow_other _ _ _ _ h, ih]

/-- The cell order is total. -/
lemma cellLe_total (a b : Cell) : cellLe a b = true ∨ cellLe b a = true := by
  rcases a with _ | x <;> rcases b with _ | y <;> simp [cellLe]
  exact le_total x y

/-- The cell order is transitive. -/
lemma cellLe_trans {a b c : Cell} (h1 : cellLe a b = true) (h2 : cellLe b c = true) :
    cellLe a c = true := by
  rcases a with _ | x <;> rcases b with _ | y <;> rcases c with _ | z <;>
    simp_all [cellLe]
  exact le_trans h1 h2

/-- Sorting by a key yields a frame pairwise ordered on that key. -/
lemma sortByKey_pairwise (key : Row → Cell) (l : List Row) :
    List.Pairwise (fun a b => cellLe (key a) (key b) = true) (sortByKey key l) := by
  haveI : IsTotal Row (fun a b => cellLe (key a) (key b) = true) :=
    ⟨fun a b => cellLe_total (key a) (key b)⟩
  haveI : IsTrans Row (fun a b => cellLe (key a) (key b) = true) :=
    ⟨fun a b c h1 h2 => cellLe_trans h1 h2⟩
  exact List.sorted_insertionSort _ l

/-- Merging a weekly table preserves the columns already present. -/
lemma mergeWeeklyTable_cols_mem (out f : DF) (v : List String) (c : String)
    (h : c ∈ out.cols) : c ∈ (mergeWeeklyTable out f v).cols := by
  unfold mergeWeeklyTable
  split
  · exact h
  · exact List.mem_append.mpr (Or.inl h)

/-- The columns after the week merge. -/
lemma weekly_out0_cols (s : Store) (uid : Nat) :
    (weekly_out0 s uid).cols
      = ["week_id", "avg_weight_kg", "avg_steps", "week_number", "start_date"] := by
  unfold weekly_out0
  split <;> rfl

/-- Columns survive the three weekly-table merges. -/
lemma weekly_out3_cols_mem (s : Store) (uid : Nat) (c : String)
    (h : c ∈ (weekly_out0 s uid).cols) : c ∈ (weekly_out3 s uid).cols := by
  unfold weekly_out3
  exact mergeWeeklyTable_cols_mem _ _ _ _
    (mergeWeeklyTable_cols_mem _ _ _ _ (mergeWeeklyTable_cols_mem _ _ _ _ h))

/-- The sort step always fires: week_number is present in the columns. -/
lemma weekly_out4_eq (s : Store) (uid : Nat) :
    weekly_out4 s uid =
      { weekly_out3 s uid with
        rows := sortByKey (fun r => r "week_number") (weekly_out3 s uid).rows } := by
  unfold weekly_out4
  rw [if_pos]
  exact List.elem_eq_true_of_mem
    (weekly_out3_cols_mem s uid _ (by rw [weekly_out0_cols]; simp))

lemma weekly_out4_cols (s : Store) (uid : Nat) :
    (weekly_out4 s uid).cols = (weekly_out3 s uid).cols := by
  rw [weekly_out4_eq]

lemma load_weekly_core_cols (s : Store) (uid : Nat) :
    (load_weekly_core s uid).cols
      = (weekly_out3 s uid).cols ++ ["weekly_weight_loss"] := by
  unfold load_weekly_core
  rw [weekly_out4_cols]

/-- Values of a column present before the `_ensure_weekly_cols` loop are
unchanged by it. -/
lemma foldl_addMissing_getCol (l : List String) (df : DF) (c : String)
    (h : c ∈ df.cols) :
    (l.foldl addMissingCol df).rows.map (fun r => r c) = df.rows.map (fun r => r c) := by
  induction l generalizing df with
  | nil => rfl
  | cons a t ih =>
    rw [List.foldl_cons]
    by_cases hc : df.cols.contains a = true
    · have heq : addMissingCol df a = df := by
        unfold addMissingCol
        rw [if_pos hc]
      rw [heq]
      exact ih _ h
    · have hne : c ≠ a := by
        intro heq
        subst heq
        exact hc (List.elem_eq_true_of_mem h)
      have heq : addMissingCol df a =
          { cols := df.cols ++ [a], rows := df.rows.map (fun r => updateRow r a none) } := by
        unfold addMissingCol
        rw [if_neg hc]
      rw [heq]
      rw [ih _ (List.mem_append.mpr (Or.inl h))]
      rw [List.map_map]
      apply List.map_congr_left
      intro r _
      exact updateRow_other r a c none hne

/-- `_ensure_weekly_cols` preserves the values of columns already present. -/
lemma ensure_getCol (df : DF) (c : String) (h : c ∈ df.cols) :
    (ensure_weekly_cols df).getCol c = df.getCol c := by
  unfold ensure_weekly_cols
  split
  · rename_i hie
    have hcols : df.cols.isEmpty = false := by
      cases hcc : df.cols.isEmpty
      · rfl
      · rw [List.isEmpty_iff] at hcc
        rw [hcc] at h
        cases h
    unfold DF.isEmpty at hie
    rw [hcols, Bool.or_false, List.isEmpty_iff] at hie
    unfold DF.getCol
    rw [hie]
  · exact foldl_addMissing_getCol _ _ _ h

unseal Rat.add Rat.mul Rat.inv Rat.sub in
/-- C9: the weekly frame's weekly_weight_loss column is exactly the
first-difference of its avg_weight_kg column taken over the frame's rows,
which are ordered by week_number (absent keys last); on the demo store with
weekly averages [90, 88.5, 88.5] the column is [absent, -1.5, 0.0]. -/
theorem C9_weekly_weight_loss_diff (s : Store) (uid : Nat) :
    (load_weekly_df s uid).getCol "weekly_weight_loss"
      = diffSeries ((load_weekly_df s uid).getCol "avg_weight_kg")
    ∧ List.Pairwise (fun a b => cellLe a b = true)
        ((load_weekly_df s uid).getCol "week_number")
    ∧ (load_weekly_df demoStore 1).getCol "weekly_weight_loss"
        = [none, some (-(3 : ℚ) / 2), some 0] := by
  refine ⟨?_, ?_, by decide⟩
  · unfold load_weekly_df
    split
    · rfl
    split
    · rfl
    · have hwwl : "weekly_weight_loss" ∈ (load_weekly_core s uid).cols := by
        rw [load_weekly_core_cols]
        exact List.mem_append.mpr (Or.inr (by simp))
      have havg : "avg_weight_kg" ∈ (load_weekly_core s uid).cols := by
        rw [load_weekly_core_cols]
        exact List.mem_append.mpr (Or.inl
          (weekly_out3_cols_mem s uid _ (by rw [weekly_out0_cols]; simp)))
      rw [ensure_getCol _ _ hwwl, ensure_getCol _ _ havg]
      show (load_weekly_core s uid).getCol "weekly_weight_loss" = _
      unfold DF.getCol load_weekly_core
      rw [diffAssign_wwl]
      rw [diffAssign_other _ _ _ (by decide)]
      rfl
  · unfold load_weekly_df
    split
    · exact List.Pairwise.nil
    split
    · exact List.Pairwise.nil
    · have hwn : "week_number" ∈ (load_weekly_core s uid).cols := by
        rw [load_weekly_core_cols]
        exact List.mem_append.mpr (Or.inl
          (weekly_out3_cols_mem s uid _ (by rw [weekly_out0_cols]; simp)))
      rw [ensure_getCol _ _ hwn]
      unfold DF.getCol load_weekly_core
      rw [diffAssign_other _ _ _ (by decide)]
      rw [weekly_out4_eq]
      rw [List.pairwise_map]
      exact sortByKey_pairwise _ _

end FitnessApp
